import Mathlib

/-!
# Verification of the B-spline exposure–response evaluator

Shallow embedding of the `evaluate_bspline` endpoint of `main.py`
(climate-change-effect backend).  Modelling conventions:

* IEEE doubles are modelled as exact rationals (`ℚ`); `np.exp` is modelled as
  `Real.exp` of the rational value, applied in the theorem statements.  The
  curve result stores the *centered log* relative-risk values (`log_value`);
  the served relative risk is `Real.exp log_value`.
* The SQL query `SELECT percentile, temperature … WHERE percentile > 0 AND
  percentile < 100 ORDER BY percentile` is embedded as a filter followed by an
  insertion sort on the percentile (`dist_query`).
* The Python dict `{row.percentile: row.temperature}` keeps the last row for a
  duplicated key, hence `tpGet` searches the reversed row list.
* `patsy.bs(temperatures, knots=[p10,p75,p90], degree=2,
  include_intercept=False)` builds the 6-function quadratic B-spline basis on
  the knot vector `[tmin,tmin,tmin,p10,p75,p90,tmax,tmax,tmax]` (boundary
  knots are the min/max of the evaluated data) and drops the first column;
  `bvarRow` returns the 5 retained basis values, computed by the Cox–de Boor
  recursion with left-closed/right-open level-0 intervals, the last
  non-degenerate interval additionally closed at the upper bound (FITPACK's
  convention used by `splev`, which `patsy` calls).
* `np.argmin` returns the first index attaining the minimum (`argminFirst`).
* HTTP error outcomes of the endpoint are the constructors of `EvalError`:
  404 "No distribution found" (`notFound`), 500 "Missing required
  percentiles" (`insufficientData`), 500 "No valid temperatures in MMT search
  range" (`emptyRange`).  The coefficient lookup is outside the embedded
  core: `evaluate` receives the five coefficients directly.
-/

namespace ClimateSpline

/-- A row of the `temperature_distribution` table: integer percentile
(`load_bspline_data.py` stores `int(float(col))`) and its temperature. -/
structure DistRow where
  percentile : Int
  temperature : ℚ
deriving DecidableEq

/-- Ordering of distribution rows used by `ORDER BY percentile`. -/
def rowLE (a b : DistRow) : Prop := a.percentile ≤ b.percentile

instance : DecidableRel rowLE := fun a b =>
  inferInstanceAs (Decidable (a.percentile ≤ b.percentile))

instance : IsTotal DistRow rowLE := ⟨fun a b => Int.le_total a.percentile b.percentile⟩

instance : IsTrans DistRow rowLE := ⟨fun _ _ _ hab hbc => le_trans hab hbc⟩

/-- The distribution query of `evaluate_bspline`: keep the rows with
`0 < percentile < 100` and sort them by percentile. -/
def dist_query (dist : List DistRow) : List DistRow :=
  List.insertionSort rowLE
    (dist.filter (fun r => decide (0 < r.percentile) && decide (r.percentile < 100)))

/-- `temp_percentiles.get(p)`: last fetched row with the given percentile. -/
def tpGet (rows : List DistRow) (p : Int) : Option ℚ :=
  (rows.reverse.find? (fun r => decide (r.percentile = p))).map (·.temperature)

/-- `np.min` on a nonempty array (0 as junk value on the empty list). -/
def listMinQ : List ℚ → ℚ
  | [] => 0
  | [x] => x
  | x :: y :: t => min x (listMinQ (y :: t))

/-- `np.max` on a nonempty array (0 as junk value on the empty list). -/
def listMaxQ : List ℚ → ℚ
  | [] => 0
  | [x] => x
  | x :: y :: t => max x (listMaxQ (y :: t))

/-- `np.argmin`: index of the first occurrence of the minimum. -/
def argminFirst : List ℚ → Nat
  | [] => 0
  | [_] => 0
  | x :: y :: t => if x ≤ listMinQ (y :: t) then 0 else argminFirst (y :: t) + 1

/-- The 9-knot vector `patsy.bs` builds for degree 2 with interior knots
`p10, p75, p90` and the default boundary knots `min(x), max(x)`. -/
def knotVector (tmin p10 p75 p90 tmax : ℚ) : List ℚ :=
  [tmin, tmin, tmin, p10, p75, p90, tmax, tmax, tmax]

/-- Cox–de Boor recursion for the B-spline basis function `B_{i,k}` over the
knot list `T`.  Level-0 intervals are left-closed/right-open; evaluation at
`upper` (the right boundary knot) selects the last non-degenerate interval,
matching FITPACK's `splev`. -/
def bspB (T : List ℚ) (upper : ℚ) : Nat → Nat → ℚ → ℚ
  | i, 0, x =>
    let ti := T.getD i 0
    let ti1 := T.getD (i + 1) 0
    if (ti ≤ x ∧ x < ti1) ∨ (x = upper ∧ ti1 = upper ∧ ti < ti1) then 1 else 0
  | i, k + 1, x =>
    let ti := T.getD i 0
    let tik1 := T.getD (i + k + 1) 0
    let ti1 := T.getD (i + 1) 0
    let tik2 := T.getD (i + k + 2) 0
    (if tik1 = ti then 0 else (x - ti) / (tik1 - ti) * bspB T upper i k x)
      + (if tik2 = ti1 then 0 else (tik2 - x) / (tik2 - ti1) * bspB T upper (i + 1) k x)

/-- The five regression coefficients `b1..b5`. -/
structure Coeffs where
  b1 : ℚ
  b2 : ℚ
  b3 : ℚ
  b4 : ℚ
  b5 : ℚ
deriving DecidableEq

/-- One row of the `bs()` design matrix: the quadratic basis functions
`B_1..B_5` at `x` (`include_intercept=False` drops `B_0`). -/
def bvarRow (T : List ℚ) (upper x : ℚ) : List ℚ :=
  [bspB T upper 1 2 x, bspB T upper 2 2 x, bspB T upper 3 2 x,
   bspB T upper 4 2 x, bspB T upper 5 2 x]

/-- Row–coefficient product (`row @ coefficients`). -/
def dotC (row : List ℚ) (c : Coeffs) : ℚ :=
  row.getD 0 0 * c.b1 + row.getD 1 0 * c.b2 + row.getD 2 0 * c.b3
    + row.getD 3 0 * c.b4 + row.getD 4 0 * c.b5

/-- Componentwise difference of two basis rows (`bvar - bvar_at_mmt`). -/
def rowSub (a b : List ℚ) : List ℚ := List.zipWith (· - ·) a b

/-- `np.where((percentile_values >= 25) & (percentile_values <= 99))[0]`:
the indices, in increasing order, whose percentile lies in the code's MMT
search window `[25, 99]`. -/
def validIndices (ps : List Int) : List Nat :=
  (List.range ps.length).filter
    (fun i => decide (25 ≤ ps.getD i 0) && decide (ps.getD i 0 ≤ 99))

/-- HTTP error outcomes of the endpoint. -/
inductive EvalError where
  | notFound
  | insufficientData
  | emptyRange
deriving DecidableEq

/-- One entry of the response's `data` array.  The served `value` field is
`Real.exp log_value`. -/
structure DataPoint where
  temperature : ℚ
  percentile : Int
  log_value : ℚ
deriving DecidableEq

/-- The response's `knots` object. -/
structure KnotTemps where
  p10 : ℚ
  p75 : ℚ
  p90 : ℚ
deriving DecidableEq

/-- The response's `mmt` object; `relative_risk` is the literal `1.0` the
endpoint writes. -/
structure MMTResult where
  temperature : ℚ
  percentile : Int
  relative_risk : ℚ
deriving DecidableEq

/-- The response's `extreme_rr` object; the served `rr_at_p01`/`rr_at_p99`
are `Real.exp` of the stored log values (or null). -/
structure ExtremeRR where
  log_rr_at_p01 : Option ℚ
  log_rr_at_p99 : Option ℚ
  temp_at_p01 : ℚ
  temp_at_p99 : ℚ
deriving DecidableEq

/-- The successful response body (minus the echoed request strings). -/
structure CurveResult where
  knots : KnotTemps
  mmt : MMTResult
  extreme_rr : ExtremeRR
  data : List DataPoint
deriving DecidableEq

/-- `temperatures = np.array([row.temperature for row in dist_result])`. -/
def tempsOf (rows : List DistRow) : List ℚ := rows.map (·.temperature)

/-- `percentile_values = np.array([row.percentile for row in dist_result])`. -/
def psOf (rows : List DistRow) : List Int := rows.map (·.percentile)

/-- The upper boundary knot `max(temperatures)` used by `patsy.bs`. -/
def upperOf (rows : List DistRow) : ℚ := listMaxQ (tempsOf rows)

/-- The full knot vector `patsy.bs` uses for the fetched rows
(`_eval_bspline_basis` sorts the assembled knots with `knots.sort()`; for a
monotone distribution the assembled vector is already sorted). -/
def knotsOf (rows : List DistRow) (p10t p75t p90t : ℚ) : List ℚ :=
  List.insertionSort (· ≤ ·)
    (knotVector (listMinQ (tempsOf rows)) p10t p75t p90t (upperOf rows))

/-- Uncentered log relative risk at `x`: `bs(x, …) @ coefficients`. -/
def fLog (c : Coeffs) (rows : List DistRow) (p10t p75t p90t x : ℚ) : ℚ :=
  dotC (bvarRow (knotsOf rows p10t p75t p90t) (upperOf rows) x) c

/-- `log_rr_uncentered = bvar @ coefficients` (one value per query point). -/
def logsOf (c : Coeffs) (rows : List DistRow) (p10t p75t p90t : ℚ) : List ℚ :=
  (tempsOf rows).map (fLog c rows p10t p75t p90t)

/-- `valid_log_rr = log_rr_uncentered[valid_indices]`. -/
def validLogsOf (c : Coeffs) (rows : List DistRow) (p10t p75t p90t : ℚ) : List ℚ :=
  (validIndices (psOf rows)).map (fun i => (logsOf c rows p10t p75t p90t).getD i 0)

/-- `mmt_idx_global = valid_indices[np.argmin(valid_log_rr)]`. -/
def mIdxOf (c : Coeffs) (rows : List DistRow) (p10t p75t p90t : ℚ) : Nat :=
  (validIndices (psOf rows)).getD (argminFirst (validLogsOf c rows p10t p75t p90t)) 0

/-- `mmt = temperatures[mmt_idx_global]`. -/
def mmtTof (c : Coeffs) (rows : List DistRow) (p10t p75t p90t : ℚ) : ℚ :=
  (tempsOf rows).getD (mIdxOf c rows p10t p75t p90t) 0

/-- `mmt_percentile = percentile_values[mmt_idx_global]`. -/
def mmtPof (c : Coeffs) (rows : List DistRow) (p10t p75t p90t : ℚ) : Int :=
  (psOf rows).getD (mIdxOf c rows p10t p75t p90t) 0

/-- `log_rr_centered = (bvar - bvar_at_mmt) @ coefficients`. -/
def centeredOf (c : Coeffs) (rows : List DistRow) (p10t p75t p90t : ℚ) : List ℚ :=
  (tempsOf rows).map (fun x =>
    dotC (rowSub (bvarRow (knotsOf rows p10t p75t p90t) (upperOf rows) x)
      (bvarRow (knotsOf rows p10t p75t p90t) (upperOf rows)
        (mmtTof c rows p10t p75t p90t))) c)

/-- `rr_centered[percentile_values == p][0] if p in percentile_values else None`
(on the log scale): first centered value whose percentile equals `p`. -/
def rrAtOf (c : Coeffs) (rows : List DistRow) (p10t p75t p90t : ℚ) (p : Int) :
    Option ℚ :=
  (((psOf rows).zip (centeredOf c rows p10t p75t p90t)).find?
    (fun z => decide (z.1 = p))).map (·.2)

/-- The success path of `evaluate_bspline` on the fetched, sorted rows, given
the knot temperatures already looked up. -/
def successResult (c : Coeffs) (rows : List DistRow) (p10t p75t p90t : ℚ) :
    CurveResult :=
  { knots := ⟨p10t, p75t, p90t⟩
    mmt := ⟨mmtTof c rows p10t p75t p90t, mmtPof c rows p10t p75t p90t, 1⟩
    extreme_rr :=
      { log_rr_at_p01 := rrAtOf c rows p10t p75t p90t 1
        log_rr_at_p99 := rrAtOf c rows p10t p75t p90t 99
        temp_at_p01 := (tpGet rows 1).getD (listMinQ (tempsOf rows))
        temp_at_p99 := (tpGet rows 99).getD (listMaxQ (tempsOf rows)) }
    data := List.zipWith (fun r lv => ⟨r.temperature, r.percentile, lv⟩) rows
      (centeredOf c rows p10t p75t p90t) }

/-- The `evaluate_bspline` endpoint (coefficients already fetched): fetch and
sort the distribution rows (404 when empty), require the knot percentiles
10, 75, 90 and the window bound 25 (500 `insufficientData` otherwise), check
the MMT search window is inhabited (500 `emptyRange` otherwise; `valid_log_rr`
is empty exactly when `validIndices` is), and build the curve. -/
def evaluate (c : Coeffs) (dist : List DistRow) : Except EvalError CurveResult :=
  if (dist_query dist).isEmpty then .error .notFound
  else
    match tpGet (dist_query dist) 10, tpGet (dist_query dist) 75,
        tpGet (dist_query dist) 90, tpGet (dist_query dist) 25 with
    | some p10t, some p75t, some p90t, some _ =>
        if (validLogsOf c (dist_query dist) p10t p75t p90t).isEmpty then
          .error .emptyRange
        else .ok (successResult c (dist_query dist) p10t p75t p90t)
    | _, _, _, _ => .error .insufficientData

/-- The uncentered log relative risk the endpoint assigns to a query
temperature `x`, as a standalone function of the raw inputs. -/
def logRRofDist (c : Coeffs) (dist : List DistRow) (x : ℚ) : ℚ :=
  match tpGet (dist_query dist) 10, tpGet (dist_query dist) 75,
      tpGet (dist_query dist) 90 with
  | some p10t, some p75t, some p90t => fLog c (dist_query dist) p10t p75t p90t x
  | _, _, _ => 0

/-- Percentile of the returned MMT, when the evaluation succeeded. -/
def mmtPercentileOf (e : Except EvalError CurveResult) : Option Int :=
  match e with
  | .ok r => some r.mmt.percentile
  | .error _ => none

/-- Did the endpoint return a curve? -/
def isOkE (e : Except EvalError CurveResult) : Bool :=
  match e with
  | .ok _ => true
  | .error _ => false

/-! ## Supporting lemmas: list minima and `argminFirst` -/

lemma listMinQ_le_of_mem {l : List ℚ} {x : ℚ} (hx : x ∈ l) : listMinQ l ≤ x := by
  induction l with
  | nil => cases hx
  | cons a t ih =>
    cases t with
    | nil =>
      rcases List.mem_cons.mp hx with h | h
      · subst h; exact le_refl _
      · cases h
    | cons b t' =>
      show min a (listMinQ (b :: t')) ≤ x
      rcases List.mem_cons.mp hx with h | h
      · subst h; exact min_le_left _ _
      · exact le_trans (min_le_right _ _) (ih h)

lemma le_listMaxQ_of_mem {l : List ℚ} {x : ℚ} (hx : x ∈ l) : x ≤ listMaxQ l := by
  induction l with
  | nil => cases hx
  | cons a t ih =>
    cases t with
    | nil =>
      rcases List.mem_cons.mp hx with h | h
      · subst h; exact le_refl _
      · cases h
    | cons b t' =>
      show x ≤ max a (listMaxQ (b :: t'))
      rcases List.mem_cons.mp hx with h | h
      · subst h; exact le_max_left _ _
      · exact le_trans (ih h) (le_max_right _ _)

lemma argminFirst_lt_length {l : List ℚ} (h : l ≠ []) : argminFirst l < l.length := by
  induction l with
  | nil => exact absurd rfl h
  | cons a t ih =>
    cases t with
    | nil => exact Nat.zero_lt_one
    | cons b t' =>
      show (if a ≤ listMinQ (b :: t') then 0 else argminFirst (b :: t') + 1) <
        t'.length + 1 + 1
      split
      · exact Nat.succ_pos _
      · exact Nat.succ_lt_succ (ih (List.cons_ne_nil _ _))

lemma getD_argminFirst {l : List ℚ} (h : l ≠ []) :
    l.getD (argminFirst l) 0 = listMinQ l := by
  induction l with
  | nil => exact absurd rfl h
  | cons a t ih =>
    cases t with
    | nil => rfl
    | cons b t' =>
      show (a :: b :: t').getD
        (if a ≤ listMinQ (b :: t') then 0 else argminFirst (b :: t') + 1) 0
        = min a (listMinQ (b :: t'))
      split
      · next hle => exact (min_eq_left hle).symm
      · next hlt =>
        have hm := ih (List.cons_ne_nil _ _)
        calc (b :: t').getD (argminFirst (b :: t')) 0 = listMinQ (b :: t') := hm
          _ = min a (listMinQ (b :: t')) :=
            (min_eq_right (le_of_lt (lt_of_not_le hlt))).symm

lemma argminFirst_first {l : List ℚ} {j : Nat} (hj : j < argminFirst l) :
    listMinQ l < l.getD j 0 := by
  induction l generalizing j with
  | nil => simp [argminFirst] at hj
  | cons a t ih =>
    cases t with
    | nil => simp [argminFirst] at hj
    | cons b t' =>
      have hj' : j < (if a ≤ listMinQ (b :: t') then 0 else argminFirst (b :: t') + 1) := hj
      split at hj'
      · exact absurd hj' (Nat.not_lt_zero j)
      · next hlt =>
        have hma : listMinQ (b :: t') < a := lt_of_not_le hlt
        have hmin : listMinQ (a :: b :: t') = listMinQ (b :: t') :=
          min_eq_right (le_of_lt hma)
        cases j with
        | zero => rw [hmin]; exact hma
        | succ j' =>
          rw [hmin]
          exact ih (Nat.lt_of_succ_lt_succ hj')

/-! ## Supporting lemmas: `getD` bookkeeping -/

lemma getD_map_at {α β : Type} (f : α → β) (l : List α) {i : Nat}
    (h : i < l.length) (d : α) (d' : β) : (l.map f).getD i d' = f (l.getD i d) := by
  rw [List.getD_eq_getElem l d h,
    List.getD_eq_getElem (l.map f) d' (by simpa using h)]
  simp

lemma getD_mem {α : Type} (l : List α) {i : Nat} (h : i < l.length) (d : α) :
    l.getD i d ∈ l := by
  rw [List.getD_eq_getElem l d h]
  exact List.getElem_mem h

lemma mem_getD {α : Type} {l : List α} {x : α} (hx : x ∈ l) (d : α) :
    ∃ i, ∃ _ : i < l.length, l.getD i d = x := by
  obtain ⟨i, h, rfl⟩ := List.mem_iff_getElem.mp hx
  exact ⟨i, h, List.getD_eq_getElem l d h⟩

/-! ## Supporting lemmas: the search window and the fetched rows -/

lemma mem_validIndices {ps : List Int} {i : Nat} :
    i ∈ validIndices ps ↔ i < ps.length ∧ 25 ≤ ps.getD i 0 ∧ ps.getD i 0 ≤ 99 := by
  simp [validIndices, List.mem_filter, List.mem_range, and_assoc]

lemma validIndices_sorted (ps : List Int) : (validIndices ps).Sorted (· < ·) :=
  (List.pairwise_lt_range ps.length).filter _

lemma dist_query_perm (dist : List DistRow) :
    List.Perm (dist_query dist)
      (dist.filter (fun r => decide (0 < r.percentile) && decide (r.percentile < 100))) :=
  List.perm_insertionSort _ _

lemma mem_dist_query {dist : List DistRow} {row : DistRow} :
    row ∈ dist_query dist ↔ row ∈ dist ∧ 0 < row.percentile ∧ row.percentile < 100 := by
  rw [(dist_query_perm dist).mem_iff]
  simp [List.mem_filter, and_assoc]

lemma dist_query_sorted (dist : List DistRow) : (dist_query dist).Pairwise rowLE :=
  List.sorted_insertionSort rowLE _

lemma psOf_dist_query_sorted (dist : List DistRow) :
    (psOf (dist_query dist)).Sorted (· ≤ ·) :=
  List.Pairwise.map _ (fun _ _ h => h) (dist_query_sorted dist)

lemma tpGet_eq_none {rows : List DistRow} {p : Int} :
    tpGet rows p = none ↔ ∀ row ∈ rows, row.percentile ≠ p := by
  simp [tpGet, List.find?_eq_none]

lemma tpGet_some_mem {rows : List DistRow} {p : Int} {t : ℚ}
    (h : tpGet rows p = some t) :
    ∃ row ∈ rows, row.percentile = p ∧ row.temperature = t := by
  unfold tpGet at h
  cases hf : rows.reverse.find? (fun r => decide (r.percentile = p)) with
  | none => rw [hf] at h; cases h
  | some row =>
    rw [hf] at h
    have hm := List.mem_of_find?_eq_some hf
    have hp := List.find?_some hf
    simp only [Option.map_some', Option.some.injEq] at h
    simp only [decide_eq_true_eq] at hp
    exact ⟨row, List.mem_reverse.mp hm, hp, h⟩

lemma tpGet_eq_of_mem_nodup {rows : List DistRow}
    (hnd : (rows.map (·.percentile)).Nodup) {row : DistRow} (hm : row ∈ rows) :
    tpGet rows row.percentile = some row.temperature := by
  cases h : tpGet rows row.percentile with
  | none => exact absurd rfl (tpGet_eq_none.mp h row hm)
  | some t =>
    obtain ⟨row', hm', hp', ht'⟩ := tpGet_some_mem h
    have heq : row' = row := List.inj_on_of_nodup_map hnd hm' hm hp'
    rw [← ht', heq]

/-! ## Supporting lemmas: lengths and normal forms of the success path -/

lemma tempsOf_length (rows : List DistRow) : (tempsOf rows).length = rows.length := by
  simp [tempsOf]

lemma psOf_length (rows : List DistRow) : (psOf rows).length = rows.length := by
  simp [psOf]

lemma dotC_rowSub (T : List ℚ) (u x m : ℚ) (c : Coeffs) :
    dotC (rowSub (bvarRow T u x) (bvarRow T u m)) c
      = dotC (bvarRow T u x) c - dotC (bvarRow T u m) c := by
  simp only [dotC, rowSub, bvarRow, List.zipWith_cons_cons, List.zipWith_nil_right,
    List.getD_cons_zero, List.getD_cons_succ]
  ring

lemma centeredOf_eq (c : Coeffs) (rows : List DistRow) (p10t p75t p90t : ℚ) :
    centeredOf c rows p10t p75t p90t
      = (tempsOf rows).map (fun x =>
          fLog c rows p10t p75t p90t x
            - fLog c rows p10t p75t p90t (mmtTof c rows p10t p75t p90t)) := by
  simp only [centeredOf, fLog, dotC_rowSub]

lemma successData_eq (c : Coeffs) (rows : List DistRow) (p10t p75t p90t : ℚ) :
    (successResult c rows p10t p75t p90t).data
      = rows.map (fun row =>
          ⟨row.temperature, row.percentile,
            fLog c rows p10t p75t p90t row.temperature
              - fLog c rows p10t p75t p90t (mmtTof c rows p10t p75t p90t)⟩) := by
  have h : (successResult c rows p10t p75t p90t).data
      = List.zipWith (fun r lv => DataPoint.mk r.temperature r.percentile lv) rows
          (centeredOf c rows p10t p75t p90t) := rfl
  rw [h, centeredOf_eq]
  unfold tempsOf
  rw [List.map_map, List.zipWith_map_right, List.zipWith_same _ rows]
  rfl

lemma rrAtOf_eq_find (c : Coeffs) (rows : List DistRow) (p10t p75t p90t : ℚ)
    (p : Int) :
    rrAtOf c rows p10t p75t p90t p
      = (rows.find? (fun row => decide (row.percentile = p))).map
          (fun row =>
            fLog c rows p10t p75t p90t row.temperature
              - fLog c rows p10t p75t p90t (mmtTof c rows p10t p75t p90t)) := by
  unfold rrAtOf
  rw [centeredOf_eq]
  unfold psOf tempsOf
  rw [List.map_map, List.zip_map', List.find?_map, Option.map_map]
  rfl

/-! ## Supporting lemmas: the MMT index -/

lemma validLogsOf_eq_nil_iff (c : Coeffs) (rows : List DistRow) (p10t p75t p90t : ℚ) :
    validLogsOf c rows p10t p75t p90t = [] ↔ validIndices (psOf rows) = [] := by
  simp [validLogsOf]

lemma mIdx_mem_valid {c : Coeffs} {rows : List DistRow} {p10t p75t p90t : ℚ}
    (hv : validLogsOf c rows p10t p75t p90t ≠ []) :
    mIdxOf c rows p10t p75t p90t ∈ validIndices (psOf rows) := by
  have hvi : validIndices (psOf rows) ≠ [] :=
    fun h => hv ((validLogsOf_eq_nil_iff c rows p10t p75t p90t).mpr h ▸ rfl)
  have hlt : argminFirst (validLogsOf c rows p10t p75t p90t)
      < (validIndices (psOf rows)).length := by
    have h1 := argminFirst_lt_length hv
    have h2 : (validLogsOf c rows p10t p75t p90t).length
        = (validIndices (psOf rows)).length := by simp [validLogsOf]
    omega
  exact getD_mem _ hlt 0

lemma mIdx_lt_length {c : Coeffs} {rows : List DistRow} {p10t p75t p90t : ℚ}
    (hv : validLogsOf c rows p10t p75t p90t ≠ []) :
    mIdxOf c rows p10t p75t p90t < rows.length := by
  have := (mem_validIndices.mp (mIdx_mem_valid hv)).1
  rwa [psOf_length] at this

lemma mmtP_in_window {c : Coeffs} {rows : List DistRow} {p10t p75t p90t : ℚ}
    (hv : validLogsOf c rows p10t p75t p90t ≠ []) :
    25 ≤ mmtPof c rows p10t p75t p90t ∧ mmtPof c rows p10t p75t p90t ≤ 99 :=
  (mem_validIndices.mp (mIdx_mem_valid hv)).2

lemma fLog_mmtT_eq_min {c : Coeffs} {rows : List DistRow} {p10t p75t p90t : ℚ}
    (hv : validLogsOf c rows p10t p75t p90t ≠ []) :
    fLog c rows p10t p75t p90t (mmtTof c rows p10t p75t p90t)
      = listMinQ (validLogsOf c rows p10t p75t p90t) := by
  have hlt : argminFirst (validLogsOf c rows p10t p75t p90t)
      < (validIndices (psOf rows)).length := by
    have h1 := argminFirst_lt_length hv
    have h2 : (validLogsOf c rows p10t p75t p90t).length
        = (validIndices (psOf rows)).length := by simp [validLogsOf]
    omega
  have hmid := mIdx_lt_length hv
  have step1 : (validLogsOf c rows p10t p75t p90t).getD
      (argminFirst (validLogsOf c rows p10t p75t p90t)) 0
      = (logsOf c rows p10t p75t p90t).getD (mIdxOf c rows p10t p75t p90t) 0 := by
    unfold validLogsOf
    exact getD_map_at _ _ hlt 0 0
  have step2 : (logsOf c rows p10t p75t p90t).getD (mIdxOf c rows p10t p75t p90t) 0
      = fLog c rows p10t p75t p90t (mmtTof c rows p10t p75t p90t) := by
    unfold logsOf mmtTof
    exact getD_map_at _ _ (by rwa [tempsOf_length]) 0 0
  rw [← step2, ← step1, getD_argminFirst hv]

lemma window_log_mem_validLogs {c : Coeffs} {rows : List DistRow} {p10t p75t p90t : ℚ}
    {j : Nat} (hj : j < rows.length) (h25 : 25 ≤ (psOf rows).getD j 0)
    (h99 : (psOf rows).getD j 0 ≤ 99) :
    (logsOf c rows p10t p75t p90t).getD j 0 ∈ validLogsOf c rows p10t p75t p90t := by
  have hjv : j ∈ validIndices (psOf rows) :=
    mem_validIndices.mpr ⟨by rwa [psOf_length], h25, h99⟩
  exact List.mem_map.mpr ⟨j, hjv, rfl⟩

lemma logsOf_getD {c : Coeffs} {rows : List DistRow} {p10t p75t p90t : ℚ}
    {j : Nat} (hj : j < rows.length) :
    (logsOf c rows p10t p75t p90t).getD j 0
      = fLog c rows p10t p75t p90t ((tempsOf rows).getD j 0) := by
  unfold logsOf
  exact getD_map_at _ _ (by rwa [tempsOf_length]) 0 0

lemma min_le_fLog_window {c : Coeffs} {rows : List DistRow} {p10t p75t p90t : ℚ}
    {j : Nat} (hj : j < rows.length) (h25 : 25 ≤ (psOf rows).getD j 0)
    (h99 : (psOf rows).getD j 0 ≤ 99) :
    listMinQ (validLogsOf c rows p10t p75t p90t)
      ≤ fLog c rows p10t p75t p90t ((tempsOf rows).getD j 0) := by
  rw [← logsOf_getD hj]
  exact listMinQ_le_of_mem (window_log_mem_validLogs hj h25 h99)

lemma tie_break_core {c : Coeffs} {rows : List DistRow} {p10t p75t p90t : ℚ}
    (hs : (psOf rows).Sorted (· ≤ ·))
    (hv : validLogsOf c rows p10t p75t p90t ≠ [])
    {j : Nat} (hj : j < rows.length) (h25 : 25 ≤ (psOf rows).getD j 0)
    (h99 : (psOf rows).getD j 0 ≤ 99)
    (hmin : fLog c rows p10t p75t p90t ((tempsOf rows).getD j 0)
      = listMinQ (validLogsOf c rows p10t p75t p90t)) :
    mmtPof c rows p10t p75t p90t ≤ (psOf rows).getD j 0 := by
  have hjv : j ∈ validIndices (psOf rows) :=
    mem_validIndices.mpr ⟨by rwa [psOf_length], h25, h99⟩
  obtain ⟨k, hk, hkj⟩ := mem_getD hjv 0
  have hLk : (validLogsOf c rows p10t p75t p90t).getD k 0
      = listMinQ (validLogsOf c rows p10t p75t p90t) := by
    have hstep : (validLogsOf c rows p10t p75t p90t).getD k 0
        = (logsOf c rows p10t p75t p90t).getD ((validIndices (psOf rows)).getD k 0) 0 := by
      unfold validLogsOf
      exact getD_map_at _ _ hk 0 0
    rw [hstep, hkj, logsOf_getD hj, hmin]
  have ha : argminFirst (validLogsOf c rows p10t p75t p90t) ≤ k := by
    by_contra hlt
    push_neg at hlt
    have hfirst := argminFirst_first hlt
    rw [hLk] at hfirst
    exact lt_irrefl _ hfirst
  have hmP : mmtPof c rows p10t p75t p90t = (psOf rows).getD (mIdxOf c rows p10t p75t p90t) 0 := rfl
  rcases lt_or_eq_of_le ha with hlt | heq
  · have hkv : k < (validIndices (psOf rows)).length := hk
    have hav : argminFirst (validLogsOf c rows p10t p75t p90t)
        < (validIndices (psOf rows)).length := lt_trans hlt hkv
    have hvi := validIndices_sorted (psOf rows)
    have hgetlt : (validIndices (psOf rows)).get ⟨_, hav⟩
        < (validIndices (psOf rows)).get ⟨k, hkv⟩ :=
      hvi.rel_get_of_lt (by exact Fin.mk_lt_mk.mpr hlt)
    have hml : mIdxOf c rows p10t p75t p90t < j := by
      have e1 : mIdxOf c rows p10t p75t p90t
          = (validIndices (psOf rows)).get ⟨_, hav⟩ := by
        unfold mIdxOf
        rw [List.getD_eq_getElem _ 0 hav, List.get_eq_getElem]
      have e2 : j = (validIndices (psOf rows)).get ⟨k, hkv⟩ := by
        rw [← hkj, List.getD_eq_getElem _ 0 hkv, List.get_eq_getElem]
      rw [e1, e2]
      exact hgetlt
    have hmlen : mIdxOf c rows p10t p75t p90t < (psOf rows).length := by
      rw [psOf_length]; exact mIdx_lt_length hv
    have hjlen : j < (psOf rows).length := by rwa [psOf_length]
    have := hs.rel_get_of_le
      (a := ⟨mIdxOf c rows p10t p75t p90t, hmlen⟩) (b := ⟨j, hjlen⟩)
      (Fin.mk_le_mk.mpr (le_of_lt hml))
    rw [hmP, List.getD_eq_getElem _ 0 hmlen, List.getD_eq_getElem _ 0 hjlen]
    simpa using this
  · have : mIdxOf c rows p10t p75t p90t = j := by
      unfold mIdxOf
      rw [heq, hkj]
    rw [hmP, this]

/-! ## Supporting lemmas: case analysis of `evaluate` -/

lemma validLogs_ne_of_p25 {c : Coeffs} {rows : List DistRow} {p10t p75t p90t : ℚ}
    {t : ℚ} (h25 : tpGet rows 25 = some t) :
    validLogsOf c rows p10t p75t p90t ≠ [] := by
  obtain ⟨row, hm, hp, _⟩ := tpGet_some_mem h25
  obtain ⟨j, hj, hjd⟩ := mem_getD hm ⟨0, 0⟩
  have hps : (psOf rows).getD j 0 = 25 := by
    unfold psOf
    rw [getD_map_at _ _ hj ⟨0, 0⟩ 0, hjd, hp]
  intro hnil
  have hjv : j ∈ validIndices (psOf rows) :=
    mem_validIndices.mpr ⟨by rwa [psOf_length], by rw [hps], by rw [hps]; norm_num⟩
  have hmem : (logsOf c rows p10t p75t p90t).getD j 0
      ∈ validLogsOf c rows p10t p75t p90t :=
    List.mem_map.mpr ⟨j, hjv, rfl⟩
  rw [hnil] at hmem
  cases hmem

lemma evaluate_ok_elim {c : Coeffs} {dist : List DistRow} {r : CurveResult}
    (h : evaluate c dist = .ok r) :
    ∃ p10t p75t p90t p25t,
      tpGet (dist_query dist) 10 = some p10t ∧
      tpGet (dist_query dist) 75 = some p75t ∧
      tpGet (dist_query dist) 90 = some p90t ∧
      tpGet (dist_query dist) 25 = some p25t ∧
      validLogsOf c (dist_query dist) p10t p75t p90t ≠ [] ∧
      r = successResult c (dist_query dist) p10t p75t p90t := by
  unfold evaluate at h
  split at h
  · cases h
  · split at h
    · next p10t p75t p90t p25t h10 h75 h90 h25 =>
      by_cases hvl : (validLogsOf c (dist_query dist) p10t p75t p90t).isEmpty
      · rw [if_pos hvl] at h
        cases h
      · rw [if_neg hvl] at h
        refine ⟨p10t, p75t, p90t, p25t, h10, h75, h90, h25, ?_, (Except.ok.inj h).symm⟩
        intro hnil
        rw [hnil] at hvl
        exact hvl rfl
    · next => cases h

lemma evaluate_insufficient {c : Coeffs} {dist : List DistRow}
    (hne : dist_query dist ≠ [])
    (hmiss : tpGet (dist_query dist) 10 = none ∨ tpGet (dist_query dist) 75 = none ∨
      tpGet (dist_query dist) 90 = none ∨ tpGet (dist_query dist) 25 = none) :
    evaluate c dist = .error .insufficientData := by
  unfold evaluate
  rw [if_neg (by simpa [List.isEmpty_iff] using hne)]
  split
  · next p10t p75t p90t p25t h10 h75 h90 h25 =>
    rcases hmiss with h | h | h | h <;> simp_all
  · rfl

lemma evaluate_ok_full {c : Coeffs} {dist : List DistRow} {a b g q : ℚ}
    (hne : dist_query dist ≠ [])
    (h10 : tpGet (dist_query dist) 10 = some a)
    (h75 : tpGet (dist_query dist) 75 = some b)
    (h90 : tpGet (dist_query dist) 90 = some g)
    (h25 : tpGet (dist_query dist) 25 = some q) :
    evaluate c dist = .ok (successResult c (dist_query dist) a b g) := by
  unfold evaluate
  rw [if_neg (by simpa [List.isEmpty_iff] using hne)]
  simp only [h10, h75, h90, h25]
  rw [if_neg (by simpa [List.isEmpty_iff] using
    @validLogs_ne_of_p25 c (dist_query dist) a b g q h25)]

lemma get_eq_getD {α : Type} (l : List α) {i : Nat} (h : i < l.length) (d : α) :
    l.get ⟨i, h⟩ = l.getD i d := by
  rw [List.getD_eq_getElem _ _ h, List.get_eq_getElem]

lemma tempsOf_getD {rows : List DistRow} {i : Nat} (h : i < rows.length)
    (d : DistRow) : (tempsOf rows).getD i 0 = (rows.getD i d).temperature :=
  getD_map_at _ _ h d 0

lemma psOf_getD {rows : List DistRow} {i : Nat} (h : i < rows.length)
    (d : DistRow) : (psOf rows).getD i 0 = (rows.getD i d).percentile :=
  getD_map_at _ _ h d 0

lemma logRRofDist_eq_fLog {c : Coeffs} {dist : List DistRow} {p10t p75t p90t : ℚ}
    (h10 : tpGet (dist_query dist) 10 = some p10t)
    (h75 : tpGet (dist_query dist) 75 = some p75t)
    (h90 : tpGet (dist_query dist) 90 = some p90t) (x : ℚ) :
    logRRofDist c dist x = fLog c (dist_query dist) p10t p75t p90t x := by
  unfold logRRofDist
  rw [h10, h75, h90]

/-! ## The claims -/

/-- C1 (amended): the MMT search window the code uses is the closed percentile
window `[25, 99]`, not `[25, 75]`: for every successful evaluation the MMT is
a query temperature whose percentile lies in `[25, 99]`, and its uncentered
log relative risk is minimal among the query temperatures whose percentile
lies in that window. -/
theorem mmt_in_code_window_is_min (c : Coeffs) (dist : List DistRow)
    (r : CurveResult) (h : evaluate c dist = Except.ok r) :
    (25 ≤ r.mmt.percentile ∧ r.mmt.percentile ≤ 99) ∧
    (∃ row ∈ dist_query dist, row.temperature = r.mmt.temperature ∧
      row.percentile = r.mmt.percentile) ∧
    (∀ row ∈ dist_query dist, 25 ≤ row.percentile → row.percentile ≤ 99 →
      logRRofDist c dist r.mmt.temperature ≤ logRRofDist c dist row.temperature) := by
  obtain ⟨p10t, p75t, p90t, p25t, h10, h75, h90, h25, hv, hr⟩ := evaluate_ok_elim h
  subst hr
  have hmmtT : (successResult c (dist_query dist) p10t p75t p90t).mmt.temperature
      = mmtTof c (dist_query dist) p10t p75t p90t := rfl
  have hmmtP : (successResult c (dist_query dist) p10t p75t p90t).mmt.percentile
      = mmtPof c (dist_query dist) p10t p75t p90t := rfl
  refine ⟨by rw [hmmtP]; exact mmtP_in_window hv, ?_, ?_⟩
  · have hm := mIdx_lt_length hv
    refine ⟨(dist_query dist).get ⟨mIdxOf c (dist_query dist) p10t p75t p90t, hm⟩,
      List.get_mem _ _ _, ?_, ?_⟩
    · rw [hmmtT, get_eq_getD _ hm ⟨0, 0⟩]
      exact (tempsOf_getD hm ⟨0, 0⟩).symm
    · rw [hmmtP, get_eq_getD _ hm ⟨0, 0⟩]
      exact (psOf_getD hm ⟨0, 0⟩).symm
  · intro row hrow h25r h99r
    obtain ⟨j, hj, hjd⟩ := mem_getD hrow ⟨0, 0⟩
    have h25j : 25 ≤ (psOf (dist_query dist)).getD j 0 := by
      rw [psOf_getD hj ⟨0, 0⟩, hjd]; exact h25r
    have h99j : (psOf (dist_query dist)).getD j 0 ≤ 99 := by
      rw [psOf_getD hj ⟨0, 0⟩, hjd]; exact h99r
    rw [logRRofDist_eq_fLog h10 h75 h90, logRRofDist_eq_fLog h10 h75 h90,
      hmmtT, fLog_mmtT_eq_min hv]
    have hmin := @min_le_fLog_window c (dist_query dist) p10t p75t p90t j hj h25j h99j
    rwa [tempsOf_getD hj ⟨0, 0⟩, hjd] at hmin

/-- C2: for every successful evaluation, the centered log relative risk at the
identified MMT is exactly `0`, hence the relative risk there is exactly `1`;
the returned `mmt.relative_risk` field is the literal `1.0`; and subtracting
the basis row at MMT before multiplying by the coefficients is the same as
subtracting the log relative risk at MMT. -/
theorem centering_at_mmt (c : Coeffs) (dist : List DistRow) (r : CurveResult)
    (h : evaluate c dist = Except.ok r) :
    r.mmt.relative_risk = 1 ∧
    (∃ pt ∈ r.data, pt.temperature = r.mmt.temperature ∧
      pt.percentile = r.mmt.percentile ∧ pt.log_value = 0 ∧
      Real.exp (pt.log_value : ℝ) = 1) ∧
    (∀ (T : List ℚ) (u x m : ℚ), dotC (rowSub (bvarRow T u x) (bvarRow T u m)) c
      = dotC (bvarRow T u x) c - dotC (bvarRow T u m) c) := by
  obtain ⟨p10t, p75t, p90t, p25t, h10, h75, h90, h25, hv, hr⟩ := evaluate_ok_elim h
  subst hr
  have hm := mIdx_lt_length hv
  refine ⟨rfl, ?_, fun T u x m => dotC_rowSub T u x m c⟩
  have hrowT : ((dist_query dist).getD (mIdxOf c (dist_query dist) p10t p75t p90t)
      ⟨0, 0⟩).temperature = mmtTof c (dist_query dist) p10t p75t p90t :=
    (tempsOf_getD hm ⟨0, 0⟩).symm
  have hrowP : ((dist_query dist).getD (mIdxOf c (dist_query dist) p10t p75t p90t)
      ⟨0, 0⟩).percentile = mmtPof c (dist_query dist) p10t p75t p90t :=
    (psOf_getD hm ⟨0, 0⟩).symm
  refine ⟨⟨mmtTof c (dist_query dist) p10t p75t p90t,
    mmtPof c (dist_query dist) p10t p75t p90t, 0⟩, ?_, rfl, rfl, rfl, by
      rw [Rat.cast_zero, Real.exp_zero]⟩
  rw [successData_eq]
  refine List.mem_map.mpr
    ⟨(dist_query dist).getD (mIdxOf c (dist_query dist) p10t p75t p90t) ⟨0, 0⟩,
      getD_mem _ hm _, ?_⟩
  rw [hrowT, hrowP, sub_self]

/-- C3: for every successful evaluation, every returned data point whose
percentile lies in the closed window `[25, 75]` has centered relative risk at
least `1` (no such point falls strictly below `1`). -/
theorem window_rr_at_least_one (c : Coeffs) (dist : List DistRow)
    (r : CurveResult) (h : evaluate c dist = Except.ok r) :
    ∀ pt ∈ r.data, 25 ≤ pt.percentile → pt.percentile ≤ 75 →
      1 ≤ Real.exp (pt.log_value : ℝ) := by
  obtain ⟨p10t, p75t, p90t, p25t, h10, h75, h90, h25, hv, hr⟩ := evaluate_ok_elim h
  subst hr
  intro pt hpt h25p h75p
  rw [successData_eq] at hpt
  obtain ⟨row, hrow, rfl⟩ := List.mem_map.mp hpt
  obtain ⟨j, hj, hjd⟩ := mem_getD hrow ⟨0, 0⟩
  have h25j : 25 ≤ (psOf (dist_query dist)).getD j 0 := by
    rw [psOf_getD hj ⟨0, 0⟩, hjd]; exact h25p
  have h99j : (psOf (dist_query dist)).getD j 0 ≤ 99 := by
    rw [psOf_getD hj ⟨0, 0⟩, hjd]
    exact le_trans h75p (by norm_num)
  have hmin := @min_le_fLog_window c (dist_query dist) p10t p75t p90t j hj h25j h99j
  rw [tempsOf_getD hj ⟨0, 0⟩, hjd] at hmin
  apply Real.one_le_exp
  have hq : (0 : ℚ) ≤ fLog c (dist_query dist) p10t p75t p90t row.temperature
      - fLog c (dist_query dist) p10t p75t p90t
        (mmtTof c (dist_query dist) p10t p75t p90t) := by
    rw [sub_nonneg, fLog_mmtT_eq_min hv]
    exact hmin
  exact_mod_cast hq

/-- C5 (amended): `evaluate` can never fail with `EmptyRangeError`: whenever
the search window contains no query temperature, percentile 25 is missing
from the retained rows, so the evaluation already failed with
`InsufficientDataError` (or `NotFound` for an empty row set); the
empty-window branch is unreachable. -/
theorem evaluate_never_emptyRange (c : Coeffs) (dist : List DistRow) :
    evaluate c dist ≠ Except.error EvalError.emptyRange := by
  intro h
  unfold evaluate at h
  split at h
  · simp at h
  · split at h
    · next p10t p75t p90t p25t h10 h75 h90 h25 =>
      split at h
      · next hvl =>
        exact @validLogs_ne_of_p25 c (dist_query dist) p10t p75t p90t p25t h25
          (List.isEmpty_iff.mp hvl)
      · simp at h
    · next => simp at h

/-- C7: for every successful evaluation, any query temperature in the search
window whose uncentered log relative risk ties the MMT's has a percentile at
least the MMT's: the MMT is the tied temperature of smallest percentile
rank (the coolest). -/
theorem tie_break_smallest_percentile (c : Coeffs) (dist : List DistRow)
    (r : CurveResult) (h : evaluate c dist = Except.ok r) :
    ∀ row ∈ dist_query dist, 25 ≤ row.percentile → row.percentile ≤ 99 →
      logRRofDist c dist row.temperature = logRRofDist c dist r.mmt.temperature →
      r.mmt.percentile ≤ row.percentile := by
  obtain ⟨p10t, p75t, p90t, p25t, h10, h75, h90, h25, hv, hr⟩ := evaluate_ok_elim h
  subst hr
  intro row hrow h25r h99r heq
  obtain ⟨j, hj, hjd⟩ := mem_getD hrow ⟨0, 0⟩
  have h25j : 25 ≤ (psOf (dist_query dist)).getD j 0 := by
    rw [psOf_getD hj ⟨0, 0⟩, hjd]; exact h25r
  have h99j : (psOf (dist_query dist)).getD j 0 ≤ 99 := by
    rw [psOf_getD hj ⟨0, 0⟩, hjd]; exact h99r
  rw [logRRofDist_eq_fLog h10 h75 h90, logRRofDist_eq_fLog h10 h75 h90] at heq
  have hminj : fLog c (dist_query dist) p10t p75t p90t
      ((tempsOf (dist_query dist)).getD j 0)
      = listMinQ (validLogsOf c (dist_query dist) p10t p75t p90t) := by
    rw [tempsOf_getD hj ⟨0, 0⟩, hjd, heq]
    exact fLog_mmtT_eq_min hv
  have hcore := tie_break_core (psOf_dist_query_sorted dist) hv hj h25j h99j hminj
  rwa [psOf_getD hj ⟨0, 0⟩, hjd] at hcore

/-- C8: for every successful evaluation, every relative-risk value in the
returned data sequence is strictly positive (it is the exponential of a
real number). -/
theorem relative_risk_positive (c : Coeffs) (dist : List DistRow)
    (r : CurveResult) (_h : evaluate c dist = Except.ok r) :
    ∀ pt ∈ r.data, 0 < Real.exp (pt.log_value : ℝ) := by
  intro pt _
  exact Real.exp_pos _

/-- C4 (amended): when the retained (0–100 exclusive) rows are nonempty but
lack one of the percentiles 10, 25, 75, 90, `evaluate` fails with
`InsufficientDataError`; a distribution with no retained row at all instead
fails with the `NotFound` error. -/
theorem missing_percentile_insufficientData (c : Coeffs) (dist : List DistRow)
    (hne : dist_query dist ≠ [])
    (hmiss : (∀ row ∈ dist, row.percentile ≠ 10) ∨
      (∀ row ∈ dist, row.percentile ≠ 25) ∨
      (∀ row ∈ dist, row.percentile ≠ 75) ∨
      (∀ row ∈ dist, row.percentile ≠ 90)) :
    evaluate c dist = Except.error EvalError.insufficientData := by
  apply evaluate_insufficient hne
  have key : ∀ p : Int, (∀ row ∈ dist, row.percentile ≠ p) →
      tpGet (dist_query dist) p = none := fun p hp =>
    tpGet_eq_none.mpr (fun row hrow => hp row (mem_dist_query.mp hrow).1)
  rcases hmiss with hm | hm | hm | hm
  · exact Or.inl (key 10 hm)
  · exact Or.inr (Or.inr (Or.inr (key 25 hm)))
  · exact Or.inr (Or.inl (key 75 hm))
  · exact Or.inr (Or.inr (Or.inl (key 90 hm)))

/-- C6 (amended): `evaluate` performs no monotonicity validation: whenever the
retained rows are nonempty and percentiles 10, 25, 75, 90 are all present, it
returns a curve — whether or not temperature is non-decreasing in the
percentile. -/
theorem no_monotonicity_validation (c : Coeffs) (dist : List DistRow)
    (hne : dist_query dist ≠ [])
    (h10 : (tpGet (dist_query dist) 10).isSome = true)
    (h75 : (tpGet (dist_query dist) 75).isSome = true)
    (h90 : (tpGet (dist_query dist) 90).isSome = true)
    (h25 : (tpGet (dist_query dist) 25).isSome = true) :
    ∃ r, evaluate c dist = Except.ok r := by
  obtain ⟨a, ha⟩ := Option.isSome_iff_exists.mp h10
  obtain ⟨b, hb⟩ := Option.isSome_iff_exists.mp h75
  obtain ⟨g, hg⟩ := Option.isSome_iff_exists.mp h90
  obtain ⟨q, hq⟩ := Option.isSome_iff_exists.mp h25
  exact ⟨_, evaluate_ok_full hne ha hb hg hq⟩

/-! ## Supporting lemmas for the extreme-percentile fields and the data array -/

lemma nodup_psOf_dist_query {dist : List DistRow}
    (hnd : (dist.map (·.percentile)).Nodup) : (psOf (dist_query dist)).Nodup := by
  have hperm := (dist_query_perm dist).map (·.percentile)
  have hsub : ((dist.filter
      (fun r => decide (0 < r.percentile) && decide (r.percentile < 100))).map
        (·.percentile)).Sublist (dist.map (·.percentile)) :=
    (List.filter_sublist dist).map _
  exact hperm.nodup_iff.mpr (hnd.sublist hsub)

lemma mem_rows_of_dist {dist : List DistRow} {row : DistRow} (hm : row ∈ dist)
    (h0 : 0 < row.percentile) (h100 : row.percentile < 100) :
    row ∈ dist_query dist :=
  mem_dist_query.mpr ⟨hm, h0, h100⟩

lemma data_map_percentile (c : Coeffs) (rows : List DistRow) (p10t p75t p90t : ℚ) :
    (successResult c rows p10t p75t p90t).data.map (·.percentile) = psOf rows := by
  rw [successData_eq, List.map_map]
  rfl

lemma rrAtOf_none_iff {c : Coeffs} {rows : List DistRow} {p10t p75t p90t : ℚ}
    {p : Int} :
    rrAtOf c rows p10t p75t p90t p = none ↔ ∀ row ∈ rows, row.percentile ≠ p := by
  rw [rrAtOf_eq_find]
  simp [List.find?_eq_none]

lemma rrAtOf_of_mem {c : Coeffs} {rows : List DistRow} {p10t p75t p90t : ℚ}
    (hnd : (rows.map (·.percentile)).Nodup) {row : DistRow} (hm : row ∈ rows) :
    rrAtOf c rows p10t p75t p90t row.percentile
      = some (fLog c rows p10t p75t p90t row.temperature
          - fLog c rows p10t p75t p90t (mmtTof c rows p10t p75t p90t)) := by
  rw [rrAtOf_eq_find]
  cases hf : rows.find? (fun r => decide (r.percentile = row.percentile)) with
  | none =>
    have := List.find?_eq_none.mp hf row hm
    simp at this
  | some row' =>
    have hp' := List.find?_some hf
    simp only [decide_eq_true_eq] at hp'
    have hm' := List.mem_of_find?_eq_some hf
    have : row' = row := List.inj_on_of_nodup_map hnd hm' hm hp'
    subst this
    rfl

/-- C9: for every successful evaluation (with distinct stored percentiles),
`rr_at_p01`/`rr_at_p99` are null exactly when percentile 1/99 is absent, and
otherwise carry the centered value at that percentile's temperature, which is
also a returned data point; `temp_at_p01`/`temp_at_p99` always carry a
temperature — the stored one when the percentile is present, else the
minimum/maximum retained temperature. -/
theorem extreme_rr_fields (c : Coeffs) (dist : List DistRow)
    (hnd : (dist.map (·.percentile)).Nodup) (r : CurveResult)
    (h : evaluate c dist = Except.ok r) :
    (r.extreme_rr.log_rr_at_p01 = none ↔ ∀ row ∈ dist, row.percentile ≠ 1) ∧
    (r.extreme_rr.log_rr_at_p99 = none ↔ ∀ row ∈ dist, row.percentile ≠ 99) ∧
    (∀ row ∈ dist, row.percentile = 1 →
      ∃ pt ∈ r.data, pt.percentile = 1 ∧ pt.temperature = row.temperature ∧
        r.extreme_rr.log_rr_at_p01 = some pt.log_value ∧
        r.extreme_rr.temp_at_p01 = row.temperature) ∧
    (∀ row ∈ dist, row.percentile = 99 →
      ∃ pt ∈ r.data, pt.percentile = 99 ∧ pt.temperature = row.temperature ∧
        r.extreme_rr.log_rr_at_p99 = some pt.log_value ∧
        r.extreme_rr.temp_at_p99 = row.temperature) ∧
    ((∀ row ∈ dist, row.percentile ≠ 1) →
      r.extreme_rr.temp_at_p01 = listMinQ (tempsOf (dist_query dist))) ∧
    ((∀ row ∈ dist, row.percentile ≠ 99) →
      r.extreme_rr.temp_at_p99 = listMaxQ (tempsOf (dist_query dist))) := by
  obtain ⟨p10t, p75t, p90t, p25t, h10, h75, h90, h25, hv, hr⟩ := evaluate_ok_elim h
  subst hr
  have hndq : ((dist_query dist).map (·.percentile)).Nodup := nodup_psOf_dist_query hnd
  have hnone : ∀ p : Int, 0 < p → p < 100 →
      (rrAtOf c (dist_query dist) p10t p75t p90t p = none ↔
        ∀ row ∈ dist, row.percentile ≠ p) := by
    intro p h0 h100
    rw [rrAtOf_none_iff]
    constructor
    · intro hall row hrow hp
      exact hall row (mem_rows_of_dist hrow (hp ▸ h0) (hp ▸ h100)) hp
    · intro hall row hrow
      exact hall row (mem_dist_query.mp hrow).1
  have hsome : ∀ p : Int, 0 < p → p < 100 → ∀ row ∈ dist, row.percentile = p →
      (∃ pt ∈ (successResult c (dist_query dist) p10t p75t p90t).data,
        pt.percentile = p ∧ pt.temperature = row.temperature ∧
        rrAtOf c (dist_query dist) p10t p75t p90t p = some pt.log_value ∧
        (tpGet (dist_query dist) p).getD (listMinQ (tempsOf (dist_query dist)))
          = row.temperature ∧
        (tpGet (dist_query dist) p).getD (listMaxQ (tempsOf (dist_query dist)))
          = row.temperature) := by
    intro p h0 h100 row hrow hp
    have hmq : row ∈ dist_query dist := mem_rows_of_dist hrow (hp ▸ h0) (hp ▸ h100)
    have hget := tpGet_eq_of_mem_nodup hndq hmq
    have hrr := @rrAtOf_of_mem c (dist_query dist) p10t p75t p90t hndq row hmq
    refine ⟨⟨row.temperature, row.percentile,
      fLog c (dist_query dist) p10t p75t p90t row.temperature
        - fLog c (dist_query dist) p10t p75t p90t
          (mmtTof c (dist_query dist) p10t p75t p90t)⟩, ?_, hp, rfl, ?_, ?_, ?_⟩
    · rw [successData_eq]
      exact List.mem_map.mpr ⟨row, hmq, rfl⟩
    · rw [← hp, hrr]
    · rw [← hp, hget]; rfl
    · rw [← hp, hget]; rfl
  refine ⟨hnone 1 (by norm_num) (by norm_num), hnone 99 (by norm_num) (by norm_num),
    ?_, ?_, ?_, ?_⟩
  · intro row hrow hp
    obtain ⟨pt, hpt, h1, h2, h3, h4, _⟩ := hsome 1 (by norm_num) (by norm_num) row hrow hp
    exact ⟨pt, hpt, h1, h2, h3, h4⟩
  · intro row hrow hp
    obtain ⟨pt, hpt, h1, h2, h3, _, h5⟩ := hsome 99 (by norm_num) (by norm_num) row hrow hp
    exact ⟨pt, hpt, h1, h2, h3, h5⟩
  · intro hab
    have hn : tpGet (dist_query dist) 1 = none :=
      tpGet_eq_none.mpr (fun row hrow => hab row (mem_dist_query.mp hrow).1)
    show (tpGet (dist_query dist) 1).getD (listMinQ (tempsOf (dist_query dist))) = _
    rw [hn]
    rfl
  · intro hab
    have hn : tpGet (dist_query dist) 99 = none :=
      tpGet_eq_none.mpr (fun row hrow => hab row (mem_dist_query.mp hrow).1)
    show (tpGet (dist_query dist) 99).getD (listMaxQ (tempsOf (dist_query dist))) = _
    rw [hn]
    rfl

/-- C10: for every successful evaluation (with distinct stored percentiles),
the returned data array has exactly one point per stored percentile strictly
between 0 and 100 (percentiles 0 and 100 are always excluded), in ascending
percentile order, and its temperatures are exactly the stored distribution
temperatures — no interpolated plotting grid. -/
theorem data_points_spec (c : Coeffs) (dist : List DistRow)
    (hnd : (dist.map (·.percentile)).Nodup) (r : CurveResult)
    (h : evaluate c dist = Except.ok r) :
    (r.data.map (·.percentile)).Sorted (· ≤ ·) ∧
    (r.data.map (·.percentile)).Nodup ∧
    (∀ row ∈ dist, 0 < row.percentile → row.percentile < 100 →
      ∃ pt ∈ r.data, pt.temperature = row.temperature ∧
        pt.percentile = row.percentile) ∧
    (∀ pt ∈ r.data, 0 < pt.percentile ∧ pt.percentile < 100 ∧
      ∃ row ∈ dist, row.temperature = pt.temperature ∧
        row.percentile = pt.percentile) := by
  obtain ⟨p10t, p75t, p90t, p25t, h10, h75, h90, h25, hv, hr⟩ := evaluate_ok_elim h
  subst hr
  refine ⟨?_, ?_, ?_, ?_⟩
  · rw [data_map_percentile]
    exact psOf_dist_query_sorted dist
  · rw [data_map_percentile]
    exact nodup_psOf_dist_query hnd
  · intro row hrow h0 h100
    have hmq : row ∈ dist_query dist := mem_rows_of_dist hrow h0 h100
    refine ⟨⟨row.temperature, row.percentile,
      fLog c (dist_query dist) p10t p75t p90t row.temperature
        - fLog c (dist_query dist) p10t p75t p90t
          (mmtTof c (dist_query dist) p10t p75t p90t)⟩, ?_, rfl, rfl⟩
    rw [successData_eq]
    exact List.mem_map.mpr ⟨row, hmq, rfl⟩
  · intro pt hpt
    rw [successData_eq] at hpt
    obtain ⟨row, hrow, rfl⟩ := List.mem_map.mp hpt
    obtain ⟨hd, h0, h100⟩ := mem_dist_query.mp hrow
    exact ⟨h0, h100, row, hd, rfl, rfl⟩

/-! ## Witnesses and counterexamples on concrete inputs -/

set_option maxRecDepth 10000

/-- Counterexample to the claimed `[25, 75]` MMT window: with coefficients
`(0,0,0,-1,0)` and the distribution `{1:0, 10:1, 25:2, 50:3, 75:4, 90:5,
99:6}`, the evaluation succeeds and returns an MMT at percentile 90, outside
`[25, 75]` (the code searches `[25, 99]`). -/
theorem mmt_spec_window_cex :
    mmtPercentileOf (evaluate ⟨0, 0, 0, -1, 0⟩
      [⟨1, 0⟩, ⟨10, 1⟩, ⟨25, 2⟩, ⟨50, 3⟩, ⟨75, 4⟩, ⟨90, 5⟩, ⟨99, 6⟩]) = some 90 ∧
    ¬((90 : Int) ≤ 75) := by
  constructor
  · have h : evaluate (⟨0, 0, 0, -1, 0⟩ : Coeffs)
        [⟨1, 0⟩, ⟨10, 1⟩, ⟨25, 2⟩, ⟨50, 3⟩, ⟨75, 4⟩, ⟨90, 5⟩, ⟨99, 6⟩]
        = Except.ok (successResult ⟨0, 0, 0, -1, 0⟩
            (dist_query [⟨1, 0⟩, ⟨10, 1⟩, ⟨25, 2⟩, ⟨50, 3⟩, ⟨75, 4⟩, ⟨90, 5⟩, ⟨99, 6⟩])
            1 4 5) := rfl
    rw [h]
    show some (mmtPof _ _ _ _ _) = some 90
    norm_num [mmtPof, mIdxOf, psOf, validLogsOf, validIndices, logsOf, fLog, tempsOf,
      dist_query, List.insertionSort, List.orderedInsert, rowLE, knotsOf, upperOf,
      knotVector, listMinQ, listMaxQ, bspB, bvarRow, dotC, argminFirst, min_def]
    decide
  · decide

/-- Witness for `mmt_in_code_window_is_min` at a concrete input. -/
theorem mmt_window_witness :
    (25 ≤ (successResult ⟨0, 0, 0, 0, 0⟩
        (dist_query [⟨10, 1⟩, ⟨25, 2⟩, ⟨75, 3⟩, ⟨90, 4⟩]) 1 3 4).mmt.percentile ∧
      (successResult ⟨0, 0, 0, 0, 0⟩
        (dist_query [⟨10, 1⟩, ⟨25, 2⟩, ⟨75, 3⟩, ⟨90, 4⟩]) 1 3 4).mmt.percentile ≤ 99) ∧
    logRRofDist ⟨0, 0, 0, 0, 0⟩ [⟨10, 1⟩, ⟨25, 2⟩, ⟨75, 3⟩, ⟨90, 4⟩]
        (successResult ⟨0, 0, 0, 0, 0⟩
          (dist_query [⟨10, 1⟩, ⟨25, 2⟩, ⟨75, 3⟩, ⟨90, 4⟩]) 1 3 4).mmt.temperature
      ≤ logRRofDist ⟨0, 0, 0, 0, 0⟩ [⟨10, 1⟩, ⟨25, 2⟩, ⟨75, 3⟩, ⟨90, 4⟩] 3 :=
  have H := mmt_in_code_window_is_min ⟨0, 0, 0, 0, 0⟩
    [⟨10, 1⟩, ⟨25, 2⟩, ⟨75, 3⟩, ⟨90, 4⟩]
    (successResult ⟨0, 0, 0, 0, 0⟩ (dist_query [⟨10, 1⟩, ⟨25, 2⟩, ⟨75, 3⟩, ⟨90, 4⟩]) 1 3 4)
    rfl
  ⟨H.1, H.2.2 ⟨75, 3⟩ (by decide) (by decide) (by decide)⟩

/-- Witness for `centering_at_mmt` at a concrete input. -/
theorem centering_witness :
    (successResult ⟨1, 1, 1, 1, 1⟩
      (dist_query [⟨10, 1⟩, ⟨25, 2⟩, ⟨75, 3⟩, ⟨90, 4⟩]) 1 3 4).mmt.relative_risk = 1 ∧
    dotC (rowSub (bvarRow [0, 0, 0, 1, 4, 5, 6, 6, 6] 6 2)
        (bvarRow [0, 0, 0, 1, 4, 5, 6, 6, 6] 6 5)) ⟨1, 1, 1, 1, 1⟩
      = dotC (bvarRow [0, 0, 0, 1, 4, 5, 6, 6, 6] 6 2) ⟨1, 1, 1, 1, 1⟩
        - dotC (bvarRow [0, 0, 0, 1, 4, 5, 6, 6, 6] 6 5) ⟨1, 1, 1, 1, 1⟩ :=
  have H := centering_at_mmt ⟨1, 1, 1, 1, 1⟩ [⟨10, 1⟩, ⟨25, 2⟩, ⟨75, 3⟩, ⟨90, 4⟩]
    (successResult ⟨1, 1, 1, 1, 1⟩ (dist_query [⟨10, 1⟩, ⟨25, 2⟩, ⟨75, 3⟩, ⟨90, 4⟩]) 1 3 4)
    rfl
  ⟨H.1, H.2.2 [0, 0, 0, 1, 4, 5, 6, 6, 6] 6 2 5⟩

/-- Witness for `window_rr_at_least_one` at a concrete input. -/
theorem window_rr_witness : 1 ≤ Real.exp (((⟨6, 25, 0⟩ : DataPoint).log_value : ℝ)) :=
  window_rr_at_least_one ⟨0, 0, 0, 0, 0⟩ [⟨10, 5⟩, ⟨25, 6⟩, ⟨75, 7⟩, ⟨90, 8⟩]
    (successResult ⟨0, 0, 0, 0, 0⟩ (dist_query [⟨10, 5⟩, ⟨25, 6⟩, ⟨75, 7⟩, ⟨90, 8⟩]) 5 7 8)
    rfl ⟨6, 25, 0⟩
    (by simp [successResult, centeredOf, dotC, rowSub, bvarRow, tempsOf, dist_query,
      List.insertionSort, List.orderedInsert, rowLE])
    (by decide) (by decide)

/-- Witness for `missing_percentile_insufficientData` at a concrete input
lacking percentile 25 (and 75, 90). -/
theorem missing_percentile_witness :
    evaluate ⟨1, 1, 1, 1, 1⟩ [⟨10, 1⟩, ⟨50, 2⟩] = Except.error EvalError.insufficientData :=
  missing_percentile_insufficientData ⟨1, 1, 1, 1, 1⟩ [⟨10, 1⟩, ⟨50, 2⟩] (by decide)
    (Or.inr (Or.inl (by decide)))

/-- Counterexample to C4 as stated: a distribution whose only rows are at
percentiles 0 and 100 lacks percentile 25, yet `evaluate` fails with the
404 `NotFound` error, not with `InsufficientDataError`. -/
theorem empty_distribution_cex :
    evaluate ⟨1, 1, 1, 1, 1⟩ [⟨0, 12⟩, ⟨100, 30⟩] = Except.error EvalError.notFound ∧
    evaluate ⟨1, 1, 1, 1, 1⟩ [⟨0, 12⟩, ⟨100, 30⟩] ≠ Except.error EvalError.insufficientData ∧
    (∀ row ∈ ([⟨0, 12⟩, ⟨100, 30⟩] : List DistRow), row.percentile ≠ 25) := by
  have h1 : evaluate (⟨1, 1, 1, 1, 1⟩ : Coeffs) [⟨0, 12⟩, ⟨100, 30⟩]
      = Except.error EvalError.notFound := rfl
  refine ⟨h1, ?_, by decide⟩
  rw [h1]
  simp

/-- Counterexample to C5 as stated: with the distribution `{10:5, 20:6}` no
query temperature lies in any MMT window (all percentiles below 25), yet
`evaluate` fails with `InsufficientDataError`, not `EmptyRangeError`. -/
theorem empty_window_cex :
    evaluate ⟨1, 1, 1, 1, 1⟩ [⟨10, 5⟩, ⟨20, 6⟩] = Except.error EvalError.insufficientData ∧
    evaluate ⟨1, 1, 1, 1, 1⟩ [⟨10, 5⟩, ⟨20, 6⟩] ≠ Except.error EvalError.emptyRange ∧
    (∀ row ∈ ([⟨10, 5⟩, ⟨20, 6⟩] : List DistRow),
      ¬(25 ≤ row.percentile ∧ row.percentile ≤ 99)) := by
  have h1 : evaluate (⟨1, 1, 1, 1, 1⟩ : Coeffs) [⟨10, 5⟩, ⟨20, 6⟩]
      = Except.error EvalError.insufficientData := rfl
  refine ⟨h1, ?_, by decide⟩
  rw [h1]
  simp

/-- Counterexample to C6 as stated: a distribution whose temperatures strictly
decrease as the percentile increases is not rejected — `evaluate` returns a
curve. -/
theorem non_monotone_accepted_cex :
    ¬ List.Sorted (· ≤ ·) (tempsOf (dist_query [⟨10, 30⟩, ⟨25, 20⟩, ⟨75, 10⟩, ⟨90, 0⟩])) ∧
    isOkE (evaluate ⟨1, 1, 1, 1, 1⟩ [⟨10, 30⟩, ⟨25, 20⟩, ⟨75, 10⟩, ⟨90, 0⟩]) = true :=
  ⟨by decide, rfl⟩

/-- Witness for `no_monotonicity_validation` at a concrete non-monotone
input. -/
theorem no_monotonicity_witness :
    isOkE (evaluate ⟨1, 1, 1, 1, 1⟩ [⟨10, 5⟩, ⟨25, 4⟩, ⟨75, 3⟩, ⟨90, 2⟩]) = true := by
  obtain ⟨r, hr⟩ := no_monotonicity_validation ⟨1, 1, 1, 1, 1⟩
    [⟨10, 5⟩, ⟨25, 4⟩, ⟨75, 3⟩, ⟨90, 2⟩] (by decide) (by decide) (by decide)
    (by decide) (by decide)
  rw [hr]
  rfl

/-- Witness for `tie_break_smallest_percentile` at a concrete input where all
window points tie. -/
theorem tie_break_witness :
    (successResult ⟨0, 0, 0, 0, 0⟩
      (dist_query [⟨10, 0⟩, ⟨25, 1⟩, ⟨75, 2⟩, ⟨90, 3⟩]) 0 2 3).mmt.percentile ≤ (75 : Int) :=
  tie_break_smallest_percentile ⟨0, 0, 0, 0, 0⟩ [⟨10, 0⟩, ⟨25, 1⟩, ⟨75, 2⟩, ⟨90, 3⟩]
    (successResult ⟨0, 0, 0, 0, 0⟩ (dist_query [⟨10, 0⟩, ⟨25, 1⟩, ⟨75, 2⟩, ⟨90, 3⟩]) 0 2 3)
    rfl ⟨75, 2⟩ (by decide) (by decide) (by decide)
    (by simp [logRRofDist, dist_query, List.insertionSort, List.orderedInsert, rowLE,
      tpGet, fLog, dotC])

/-- Witness for `relative_risk_positive` at a concrete input. -/
theorem positivity_witness : 0 < Real.exp (((⟨2, 10, 0⟩ : DataPoint).log_value : ℝ)) :=
  relative_risk_positive ⟨0, 0, 0, 0, 0⟩ [⟨10, 2⟩, ⟨25, 3⟩, ⟨75, 4⟩, ⟨90, 5⟩]
    (successResult ⟨0, 0, 0, 0, 0⟩ (dist_query [⟨10, 2⟩, ⟨25, 3⟩, ⟨75, 4⟩, ⟨90, 5⟩]) 2 4 5)
    rfl ⟨2, 10, 0⟩
    (by simp [successResult, centeredOf, dotC, rowSub, bvarRow, tempsOf, dist_query,
      List.insertionSort, List.orderedInsert, rowLE])

/-- Witness for `extreme_rr_fields` at a concrete input lacking percentiles
1 and 99. -/
theorem extreme_rr_witness :
    (successResult ⟨2, 3, 4, 5, 6⟩
      (dist_query [⟨10, 11⟩, ⟨25, 12⟩, ⟨75, 13⟩, ⟨90, 14⟩]) 11 13 14).extreme_rr.log_rr_at_p01
        = none ∧
    (successResult ⟨2, 3, 4, 5, 6⟩
      (dist_query [⟨10, 11⟩, ⟨25, 12⟩, ⟨75, 13⟩, ⟨90, 14⟩]) 11 13 14).extreme_rr.temp_at_p01
        = listMinQ (tempsOf (dist_query [⟨10, 11⟩, ⟨25, 12⟩, ⟨75, 13⟩, ⟨90, 14⟩])) :=
  have H := extreme_rr_fields ⟨2, 3, 4, 5, 6⟩ [⟨10, 11⟩, ⟨25, 12⟩, ⟨75, 13⟩, ⟨90, 14⟩]
    (by decide)
    (successResult ⟨2, 3, 4, 5, 6⟩ (dist_query [⟨10, 11⟩, ⟨25, 12⟩, ⟨75, 13⟩, ⟨90, 14⟩])
      11 13 14) rfl
  ⟨H.1.mpr (by decide), H.2.2.2.2.1 (by decide)⟩

/-- Witness for `data_points_spec` at a concrete input with rows at
percentiles 0 and 100. -/
theorem data_points_witness :
    ((successResult ⟨1, 2, 3, 4, 5⟩
      (dist_query [⟨0, -5⟩, ⟨10, 1⟩, ⟨25, 2⟩, ⟨75, 3⟩, ⟨90, 4⟩, ⟨100, 9⟩]) 1 3 4).data.map
        (·.percentile)).Sorted (· ≤ ·) ∧
    ((successResult ⟨1, 2, 3, 4, 5⟩
      (dist_query [⟨0, -5⟩, ⟨10, 1⟩, ⟨25, 2⟩, ⟨75, 3⟩, ⟨90, 4⟩, ⟨100, 9⟩]) 1 3 4).data.map
        (·.percentile)).Nodup :=
  have H := data_points_spec ⟨1, 2, 3, 4, 5⟩
    [⟨0, -5⟩, ⟨10, 1⟩, ⟨25, 2⟩, ⟨75, 3⟩, ⟨90, 4⟩, ⟨100, 9⟩] (by decide)
    (successResult ⟨1, 2, 3, 4, 5⟩
      (dist_query [⟨0, -5⟩, ⟨10, 1⟩, ⟨25, 2⟩, ⟨75, 3⟩, ⟨90, 4⟩, ⟨100, 9⟩]) 1 3 4) rfl
  ⟨H.1, H.2.1⟩

end ClimateSpline
